import Mathlib

/-!
Shallow embedding of the vault collectible-card portfolio tracker.

The embedding mirrors the repository's code:
  - the items table and prices table of database.py become Lists inside a Db state;
  - SQLite CURRENT_TIMESTAMP values become a monotone Nat clock carried by the state;
  - Python floats become rationals; Python None becomes Option.none;
  - Python truthiness on optional floats (None and 0.0 are falsy) is modelled explicitly.
-/

namespace Vault

/-- A row of the items table (database.py, init_db).  is_sealed is stored as the
integer int(is_sealed) in SQLite; since the code only ever stores 0 or 1 it is
modelled as Bool.  created_at and updated_at are clock ticks standing in for
CURRENT_TIMESTAMP strings. -/
structure Item where
  id : Nat
  name : String
  set_name : Option String := none
  card_number : Option String := none
  rarity : Option String := none
  variance : Option String := none
  quantity : Int := 1
  cost_basis : Option ℚ := none
  is_sealed : Bool := false
  api_id : Option String := none
  portfolio_name : Option String := none
  grade : Option String := none
  condition : Option String := none
  notes : Option String := none
  date_added : Option String := none
  created_at : Nat := 0
  updated_at : Nat := 0
  deriving DecidableEq

/-- A row of the prices table: an append-only price observation. -/
structure PriceObs where
  item_id : Nat
  price : ℚ
  timestamp : Nat
  deriving DecidableEq

/-- The database state: the two tables, the AUTOINCREMENT counter for items,
and a monotone clock producing timestamps. -/
structure Db where
  items : List Item := []
  prices : List PriceObs := []
  nextItemId : Nat := 1
  clock : Nat := 0
  deriving DecidableEq

/-- The arguments of upsert_item (database.py), with the same defaults as the
Python keyword arguments. -/
structure UpsertArgs where
  name : String
  set_name : Option String := none
  card_number : Option String := none
  rarity : Option String := none
  variance : Option String := none
  quantity : Int := 1
  cost_basis : Option ℚ := none
  is_sealed : Bool := false
  api_id : Option String := none
  portfolio_name : Option String := none
  grade : Option String := none
  condition : Option String := none
  notes : Option String := none
  date_added : Option String := none
  deriving DecidableEq

/-- The natural-key lookup of upsert_item: name = ? AND set_name IS ? AND
card_number IS ? AND variance IS ? AND grade IS ? AND condition IS ?.
SQL IS on nullable columns is NULL-safe equality, i.e. equality of Options. -/
def keyMatches (a : UpsertArgs) (it : Item) : Bool :=
  decide (it.name = a.name ∧ it.set_name = a.set_name ∧ it.card_number = a.card_number ∧
    it.variance = a.variance ∧ it.grade = a.grade ∧ it.condition = a.condition)

/-- The UPDATE branch of upsert_item: sets rarity, quantity, cost_basis,
is_sealed, api_id = COALESCE(new, old), portfolio_name, notes, date_added and
updated_at; the key fields are untouched. -/
def updateItemFields (a : UpsertArgs) (t : Nat) (j : Item) : Item :=
  { j with
      rarity := a.rarity
      quantity := a.quantity
      cost_basis := a.cost_basis
      is_sealed := a.is_sealed
      api_id := match a.api_id with
        | some v => some v
        | none => j.api_id
      portfolio_name := a.portfolio_name
      notes := a.notes
      date_added := a.date_added
      updated_at := t }

/-- The fresh row inserted by the INSERT branch of upsert_item. -/
def insertedItem (a : UpsertArgs) (db : Db) : Item :=
  { id := db.nextItemId
    name := a.name
    set_name := a.set_name
    card_number := a.card_number
    rarity := a.rarity
    variance := a.variance
    quantity := a.quantity
    cost_basis := a.cost_basis
    is_sealed := a.is_sealed
    api_id := a.api_id
    portfolio_name := a.portfolio_name
    grade := a.grade
    condition := a.condition
    notes := a.notes
    date_added := a.date_added
    created_at := db.clock
    updated_at := db.clock }

/-- upsert_item (database.py): look the natural key up with fetchone (the first
matching row); if found, UPDATE the row with that id and return the existing
id; otherwise INSERT a new row and return lastrowid. -/
def upsert_item (a : UpsertArgs) (db : Db) : Nat × Db :=
  match db.items.find? (keyMatches a) with
  | some it =>
      (it.id,
       { db with
           items := db.items.map fun j =>
             if j.id = it.id then updateItemFields a db.clock j else j
           clock := db.clock + 1 })
  | none =>
      (db.nextItemId,
       { db with
           items := db.items ++ [insertedItem a db]
           nextItemId := db.nextItemId + 1
           clock := db.clock + 1 })

/-- record_price (database.py): append one observation stamped with the
current time. -/
def record_price (item_id : Nat) (price : ℚ) (db : Db) : Db :=
  { db with
      prices := db.prices ++ [{ item_id := item_id, price := price, timestamp := db.clock }]
      clock := db.clock + 1 }

/-! ### Generic list helpers -/

/-- find? p is the head of filter p: fetchone of a scan equals the first row
kept by the WHERE clause. -/
theorem find?_eq_head?_filter {α : Type} (p : α → Bool) (l : List α) :
    l.find? p = (l.filter p).head? := by
  induction l with
  | nil => rfl
  | cons x xs ih =>
      cases h : p x with
      | true =>
          rw [List.find?_cons_of_pos _ h, List.filter_cons_of_pos h, List.head?_cons]
      | false =>
          rw [List.find?_cons_of_neg _ (by simp [h]), List.filter_cons_of_neg (by simp [h]), ih]

/-- A list of length at most one that contains a equals [a]. -/
theorem eq_singleton_of_length_le_one {α : Type} {l : List α} {a : α}
    (hlen : l.length ≤ 1) (ha : a ∈ l) : l = [a] := by
  match l, ha with
  | [x], ha =>
      simp only [List.mem_singleton] at ha
      subst ha
      rfl
  | x :: y :: t, _ =>
      simp at hlen

/-- Filtering a mapped list when the map does not change the predicate. -/
theorem filter_map_of_pred_invariant {α : Type} (p : α → Bool) (f : α → α) (l : List α)
    (hf : ∀ x, p (f x) = p x) :
    (l.map f).filter p = (l.filter p).map f := by
  induction l with
  | nil => rfl
  | cons x xs ih =>
      by_cases h : p x
      · simp [List.filter_cons, hf, h, ih]
      · simp only [Bool.not_eq_true] at h
        simp [List.filter_cons, hf, h, ih]

/-! ### Key-match properties of upsert -/

/-- Two upsert argument records with the same six-field natural key. -/
def sameKey (a b : UpsertArgs) : Prop :=
  a.name = b.name ∧ a.set_name = b.set_name ∧ a.card_number = b.card_number ∧
  a.variance = b.variance ∧ a.grade = b.grade ∧ a.condition = b.condition

/-- The UPDATE branch never touches the natural-key columns. -/
theorem keyMatches_updateItemFields (b a : UpsertArgs) (t : Nat) (j : Item) :
    keyMatches b (updateItemFields a t j) = keyMatches b j := rfl

/-- Arguments with equal natural keys match the same rows. -/
theorem keyMatches_congr {a b : UpsertArgs} (h : sameKey a b) :
    ∀ it, keyMatches a it = keyMatches b it := by
  obtain ⟨h1, h2, h3, h4, h5, h6⟩ := h
  intro it
  simp [keyMatches, h1, h2, h3, h4, h5, h6]

/-- The row inserted for arguments a matches every key equal to a's. -/
theorem keyMatches_insertedItem {a b : UpsertArgs} (h : sameKey a b) (db : Db) :
    keyMatches b (insertedItem a db) = true := by
  obtain ⟨h1, h2, h3, h4, h5, h6⟩ := h
  simp [keyMatches, insertedItem, h1, h2, h3, h4, h5, h6]

/-- C1: for every pair of upsert calls with the same natural key (NULL-equals-NULL
on the optional fields), starting from a state holding at most one row with that
key, the second call returns the same id as the first, and afterwards exactly one
item row with that key exists and its quantity is the second call's quantity
argument: no duplicate row is created. -/
theorem upsert_same_key_no_duplicate (db : Db) (a1 a2 : UpsertArgs)
    (hkey : sameKey a1 a2)
    (hdup : (db.items.filter (keyMatches a1)).length ≤ 1) :
    (upsert_item a2 (upsert_item a1 db).2).1 = (upsert_item a1 db).1 ∧
    ((upsert_item a2 (upsert_item a1 db).2).2.items.filter (keyMatches a2)).map Item.quantity
      = [a2.quantity] := by
  have hk : ∀ it, keyMatches a1 it = keyMatches a2 it := keyMatches_congr hkey
  cases hfind : db.items.find? (keyMatches a1) with
  | none =>
      have hdb1 : upsert_item a1 db =
          (db.nextItemId,
           { db with
               items := db.items ++ [insertedItem a1 db]
               nextItemId := db.nextItemId + 1
               clock := db.clock + 1 }) := by
        simp [upsert_item, hfind]
      have hfilter_nil : db.items.filter (keyMatches a2) = [] := by
        rw [List.filter_eq_nil_iff]
        intro x hx
        rw [← hk x]
        exact List.find?_eq_none.mp hfind x hx
      have hmatch : keyMatches a2 (insertedItem a1 db) = true := keyMatches_insertedItem hkey db
      have hfilter1 : (db.items ++ [insertedItem a1 db]).filter (keyMatches a2)
          = [insertedItem a1 db] := by
        rw [List.filter_append, hfilter_nil, List.nil_append,
          List.filter_cons_of_pos hmatch]
        rfl
      have hfind2 : (db.items ++ [insertedItem a1 db]).find? (keyMatches a2)
          = some (insertedItem a1 db) := by
        rw [find?_eq_head?_filter, hfilter1]
        rfl
      rw [hdb1]
      have hdb2 : upsert_item a2
          ({ db with
               items := db.items ++ [insertedItem a1 db]
               nextItemId := db.nextItemId + 1
               clock := db.clock + 1 } : Db) =
          ((insertedItem a1 db).id,
           { db with
               items := (db.items ++ [insertedItem a1 db]).map fun j =>
                 if j.id = (insertedItem a1 db).id then
                   updateItemFields a2 (db.clock + 1) j
                 else j
               nextItemId := db.nextItemId + 1
               clock := db.clock + 1 + 1 }) := by
        simp [upsert_item, hfind2]
      rw [hdb2]
      refine ⟨rfl, ?_⟩
      have hpres : ∀ j : Item,
          keyMatches a2 (if j.id = (insertedItem a1 db).id then
            updateItemFields a2 (db.clock + 1) j else j) = keyMatches a2 j := by
        intro j
        by_cases h : j.id = (insertedItem a1 db).id
        · rw [if_pos h, keyMatches_updateItemFields]
        · rw [if_neg h]
      rw [filter_map_of_pred_invariant _ _ _ hpres, hfilter1]
      simp [updateItemFields]
  | some it =>
      have hmem : it ∈ db.items := List.mem_of_find?_eq_some hfind
      have hkey1 : keyMatches a1 it = true := List.find?_some hfind
      have hfilt1 : db.items.filter (keyMatches a1) = [it] :=
        eq_singleton_of_length_le_one hdup (List.mem_filter.mpr ⟨hmem, hkey1⟩)
      have hfilt2 : db.items.filter (keyMatches a2) = [it] := by
        rw [← hfilt1]
        exact (List.filter_congr fun x _ => (hk x).symm)
      have hdb1 : upsert_item a1 db =
          (it.id,
           { db with
               items := db.items.map fun j =>
                 if j.id = it.id then updateItemFields a1 db.clock j else j
               clock := db.clock + 1 }) := by
        simp [upsert_item, hfind]
      have hpres1 : ∀ j : Item,
          keyMatches a2 (if j.id = it.id then updateItemFields a1 db.clock j else j)
            = keyMatches a2 j := by
        intro j
        by_cases h : j.id = it.id
        · rw [if_pos h, keyMatches_updateItemFields]
        · rw [if_neg h]
      have hfilt3 : (db.items.map fun j =>
          if j.id = it.id then updateItemFields a1 db.clock j else j).filter (keyMatches a2)
          = [updateItemFields a1 db.clock it] := by
        rw [filter_map_of_pred_invariant _ _ _ hpres1, hfilt2]
        simp
      have hfind2 : (db.items.map fun j =>
          if j.id = it.id then updateItemFields a1 db.clock j else j).find? (keyMatches a2)
          = some (updateItemFields a1 db.clock it) := by
        rw [find?_eq_head?_filter, hfilt3]
        rfl
      rw [hdb1]
      have hdb2 : upsert_item a2
          ({ db with
               items := db.items.map fun j =>
                 if j.id = it.id then updateItemFields a1 db.clock j else j
               clock := db.clock + 1 } : Db) =
          ((updateItemFields a1 db.clock it).id,
           { db with
               items := (db.items.map fun j =>
                   if j.id = it.id then updateItemFields a1 db.clock j else j).map fun j =>
                 if j.id = (updateItemFields a1 db.clock it).id then
                   updateItemFields a2 (db.clock + 1) j
                 else j
               clock := db.clock + 1 + 1 }) := by
        simp [upsert_item, hfind2]
      rw [hdb2]
      refine ⟨rfl, ?_⟩
      have hpres2 : ∀ j : Item,
          keyMatches a2 (if j.id = (updateItemFields a1 db.clock it).id then
            updateItemFields a2 (db.clock + 1) j else j) = keyMatches a2 j := by
        intro j
        by_cases h : j.id = (updateItemFields a1 db.clock it).id
        · rw [if_pos h, keyMatches_updateItemFields]
        · rw [if_neg h]
      rw [filter_map_of_pred_invariant _ _ _ hpres2, hfilt3]
      simp [updateItemFields]

/-- Witness for C1 at a concrete input: two upserts of the same bare key with
quantities 2 and then 5 on an empty database. -/
theorem upsert_same_key_no_duplicate_witness :
    ((({} : Db).items.filter (keyMatches { name := "Pikachu", quantity := 2 })).length ≤ 1) ∧
    ((upsert_item { name := "Pikachu", quantity := 5 }
        (upsert_item { name := "Pikachu", quantity := 2 } ({} : Db)).2).1
      = (upsert_item { name := "Pikachu", quantity := 2 } ({} : Db)).1 ∧
     ((upsert_item { name := "Pikachu", quantity := 5 }
        (upsert_item { name := "Pikachu", quantity := 2 } ({} : Db)).2).2.items.filter
          (keyMatches { name := "Pikachu", quantity := 5 })).map Item.quantity
      = [(5 : Int)]) :=
  ⟨by decide,
   upsert_same_key_no_duplicate ({} : Db)
     { name := "Pikachu", quantity := 2 } { name := "Pikachu", quantity := 5 }
     ⟨rfl, rfl, rfl, rfl, rfl, rfl⟩ (by decide)⟩

/-! ### api_id behaviour of upsert (C4) -/

/-- C4 counterexample: upsert_item writes api_id = COALESCE(supplied, stored), so
an upsert that matches the natural key and supplies a non-null api_id replaces a
previously resolved api_id, contradicting the claim that the stored api_id is
left unchanged whatever value the upsert supplies. -/
theorem upsert_api_id_overwrite_counterexample :
    ((upsert_item { name := "Pikachu", api_id := some "new-id" }
        { items := [{ id := 1, name := "Pikachu", api_id := some "old-id" }] }).2.items.map
          Item.api_id) = [some "new-id"] ∧
    (some "new-id" : Option String) ≠ some "old-id" := by
  constructor
  · rfl
  · decide

/-- C4 amended: upsert_item stores COALESCE(supplied api_id, stored api_id).
When the call supplies no api_id (as every call made by import_csv does), all
stored api_id values are unchanged and a freshly inserted row gets none; when
the call supplies a non-null api_id, the UPDATE branch stores that value. -/
theorem upsert_api_id_coalesce (db : Db) (a : UpsertArgs) :
    (a.api_id = none →
      (upsert_item a db).2.items.map Item.api_id
        = db.items.map Item.api_id ++
          (if db.items.find? (keyMatches a) = none then [none] else [])) ∧
    (∀ (j : Item) (t : Nat) (v : String), a.api_id = some v →
      (updateItemFields a t j).api_id = some v) := by
  constructor
  · intro hnone
    cases hfind : db.items.find? (keyMatches a) with
    | none =>
        simp only [upsert_item, hfind, List.map_append, if_pos rfl]
        simp [insertedItem, hnone]
    | some it =>
        simp only [upsert_item, hfind, List.map_map]
        have hfun : (Item.api_id ∘ fun j =>
            if j.id = it.id then updateItemFields a db.clock j else j) = Item.api_id := by
          funext j
          by_cases h : j.id = it.id
        <;> simp [h, updateItemFields, hnone]
        rw [hfun]
        simp
  · intro j t v hv
    simp [updateItemFields, hv]

/-- Witness for the amended C4 statement: a no-api_id upsert against a one-row
database preserves the stored api_id, and an update carrying an api_id stores it. -/
theorem upsert_api_id_coalesce_witness :
    ((upsert_item { name := "Pikachu" }
        { items := [{ id := 1, name := "Pikachu", api_id := some "old-id" }] }).2.items.map
          Item.api_id) = [some "old-id"] ∧
    (updateItemFields { name := "Pikachu", api_id := some "new-id" } 7
        { id := 1, name := "Pikachu", api_id := some "old-id" }).api_id = some "new-id" := by
  constructor
  · have h := (upsert_api_id_coalesce
      { items := [{ id := 1, name := "Pikachu", api_id := some "old-id" }] }
      { name := "Pikachu" }).1 rfl
    rw [h]
    rfl
  · exact (upsert_api_id_coalesce
      { items := [{ id := 1, name := "Pikachu", api_id := some "old-id" }] }
      { name := "Pikachu", api_id := some "new-id" }).2
      { id := 1, name := "Pikachu", api_id := some "old-id" } 7 "new-id" rfl

/-! ### The price time series (C5) -/

/-- The rows of the prices table belonging to one item, in insertion order. -/
def itemPrices (db : Db) (i : Nat) : List PriceObs :=
  db.prices.filter fun o => decide (o.item_id = i)

/-- The row with MAX(timestamp): the SQL subquery used by get_all_items and
get_summary_stats.  (Timestamps of one item are pairwise distinct in every state
reachable by record_price, so ties never arise there.) -/
def latestObs : List PriceObs → Option PriceObs
  | [] => none
  | o :: rest =>
      match latestObs rest with
      | none => some o
      | some b => if b.timestamp < o.timestamp then some o else some b

/-- The current/previous price columns produced by get_all_items for one item:
p1 is the max-timestamp observation, p2 the max-timestamp observation strictly
older than p1. -/
def latest_and_previous (db : Db) (i : Nat) : Option ℚ × Option ℚ :=
  match latestObs (itemPrices db i) with
  | none => (none, none)
  | some cur =>
      (some cur.price,
       (latestObs ((itemPrices db i).filter fun o =>
          decide (o.timestamp < cur.timestamp))).map fun o => o.price)

/-- A batch of record_price calls, each to some item with some price. -/
def applyRecords (ops : List (Nat × ℚ)) (db : Db) : Db :=
  ops.foldl (fun d op => record_price op.1 op.2 d) db

theorem clock_le_applyRecords (ops : List (Nat × ℚ)) (db : Db) :
    db.clock ≤ (applyRecords ops db).clock := by
  induction ops generalizing db with
  | nil => exact Nat.le_refl _
  | cons op rest ih =>
      exact Nat.le_trans (Nat.le_succ _) (ih (record_price op.1 op.2 db))

theorem itemPrices_record_self (db : Db) (i : Nat) (q : ℚ) :
    itemPrices (record_price i q db) i
      = itemPrices db i ++ [{ item_id := i, price := q, timestamp := db.clock }] := by
  simp [itemPrices, record_price, List.filter_append]

theorem itemPrices_record_other (db : Db) (i j : Nat) (q : ℚ) (h : j ≠ i) :
    itemPrices (record_price j q db) i = itemPrices db i := by
  simp [itemPrices, record_price, List.filter_append, h]

theorem itemPrices_applyRecords (ops : List (Nat × ℚ)) (db : Db) (i : Nat)
    (h : ∀ op ∈ ops, op.1 ≠ i) :
    itemPrices (applyRecords ops db) i = itemPrices db i := by
  induction ops generalizing db with
  | nil => rfl
  | cons op rest ih =>
      have hop : op.1 ≠ i := h op (List.mem_cons_self op rest)
      have hrest : ∀ p ∈ rest, p.1 ≠ i := fun p hp => h p (List.mem_cons_of_mem op hp)
      calc itemPrices (applyRecords (op :: rest) db) i
          = itemPrices (applyRecords rest (record_price op.1 op.2 db)) i := rfl
        _ = itemPrices (record_price op.1 op.2 db) i := ih _ hrest
        _ = itemPrices db i := itemPrices_record_other db i op.1 op.2 hop

theorem latestObs_append_last (l : List PriceObs) (x : PriceObs)
    (h : ∀ o ∈ l, o.timestamp < x.timestamp) :
    latestObs (l ++ [x]) = some x := by
  induction l with
  | nil => rfl
  | cons o t ih =>
      have ht : ∀ b ∈ t, b.timestamp < x.timestamp :=
        fun b hb => h b (List.mem_cons_of_mem o hb)
      have ho : o.timestamp < x.timestamp := h o (List.mem_cons_self o t)
      show latestObs (o :: (t ++ [x])) = some x
      rw [latestObs, ih ht]
      show (if x.timestamp < o.timestamp then some o else some x) = some x
      rw [if_neg (Nat.not_lt.mpr (Nat.le_of_lt ho))]

/-- C5: starting from any state whose recorded timestamps are in the past,
recording P1 for an item, then P2 strictly later (any number of records for
other items in between or after), makes latest_and_previous yield (P2, P1); and
for an item with exactly one observation it yields (that observation, none). -/
theorem record_latest_and_previous (db : Db) (i : Nat) (P1 P2 : ℚ)
    (u1 u2 : List (Nat × ℚ))
    (hclock : ∀ o ∈ db.prices, o.timestamp < db.clock)
    (hu1 : ∀ op ∈ u1, op.1 ≠ i) (hu2 : ∀ op ∈ u2, op.1 ≠ i) :
    latest_and_previous
        (applyRecords u2 (record_price i P2 (applyRecords u1 (record_price i P1 db)))) i
      = (some P2, some P1) ∧
    (itemPrices db i = [] →
      latest_and_previous (applyRecords u1 (record_price i P1 db)) i = (some P1, none)) := by
  have hsub : ∀ o ∈ itemPrices db i, o.timestamp < db.clock :=
    fun o ho => hclock o (List.mem_of_mem_filter ho)
  have h1 : itemPrices (applyRecords u1 (record_price i P1 db)) i
      = itemPrices db i ++ [⟨i, P1, db.clock⟩] := by
    rw [itemPrices_applyRecords u1 _ i hu1, itemPrices_record_self]
  have hc2 : db.clock + 1 ≤ (applyRecords u1 (record_price i P1 db)).clock := by
    have h := clock_le_applyRecords u1 (record_price i P1 db)
    simpa [record_price] using h
  constructor
  · have h2 : itemPrices
        (applyRecords u2 (record_price i P2 (applyRecords u1 (record_price i P1 db)))) i
        = (itemPrices db i ++ [⟨i, P1, db.clock⟩])
          ++ [⟨i, P2, (applyRecords u1 (record_price i P1 db)).clock⟩] := by
      rw [itemPrices_applyRecords u2 _ i hu2, itemPrices_record_self, h1]
    generalize hT : (applyRecords u1 (record_price i P1 db)).clock = T at hc2 h2
    have hbound : ∀ o ∈ itemPrices db i ++ [(⟨i, P1, db.clock⟩ : PriceObs)],
        o.timestamp < T := by
      intro o ho
      rcases List.mem_append.mp ho with h | h
      · exact Nat.lt_of_lt_of_le (Nat.lt_of_lt_of_le (hsub o h) (Nat.le_succ _)) hc2
      · rcases List.mem_singleton.mp h with rfl
        exact Nat.lt_of_lt_of_le (Nat.lt_succ_self _) hc2
    have hlat2 : latestObs ((itemPrices db i ++ [(⟨i, P1, db.clock⟩ : PriceObs)])
        ++ [(⟨i, P2, T⟩ : PriceObs)]) = some ⟨i, P2, T⟩ :=
      latestObs_append_last _ ⟨i, P2, T⟩ hbound
    have hfilt : ((itemPrices db i ++ [(⟨i, P1, db.clock⟩ : PriceObs)])
        ++ [(⟨i, P2, T⟩ : PriceObs)]).filter (fun o => decide (o.timestamp < T))
        = itemPrices db i ++ [(⟨i, P1, db.clock⟩ : PriceObs)] := by
      rw [List.filter_append,
        List.filter_eq_self.mpr (fun o ho => decide_eq_true (hbound o ho))]
      simp
    have hlat1 : latestObs (itemPrices db i ++ [(⟨i, P1, db.clock⟩ : PriceObs)])
        = some ⟨i, P1, db.clock⟩ :=
      latestObs_append_last _ ⟨i, P1, db.clock⟩ hsub
    unfold latest_and_previous
    rw [h2, hlat2]
    show (some P2,
        (latestObs (((itemPrices db i ++ [(⟨i, P1, db.clock⟩ : PriceObs)])
          ++ [(⟨i, P2, T⟩ : PriceObs)]).filter
            (fun o => decide (o.timestamp < T)))).map (fun o => o.price))
      = (some P2, some P1)
    rw [hfilt, hlat1]
    rfl
  · intro hempty
    rw [hempty, List.nil_append] at h1
    have hone : latestObs [(⟨i, P1, db.clock⟩ : PriceObs)] = some ⟨i, P1, db.clock⟩ := rfl
    unfold latest_and_previous
    rw [h1, hone]
    show (some P1,
        (latestObs (([(⟨i, P1, db.clock⟩ : PriceObs)]).filter
          (fun o => decide (o.timestamp < db.clock)))).map (fun o => o.price))
      = (some P1, none)
    have hf2 : ([(⟨i, P1, db.clock⟩ : PriceObs)]).filter
        (fun o => decide (o.timestamp < db.clock)) = [] := by
      simp
    rw [hf2]
    rfl

/-- Witness for C5: on an empty database, record 50 for item 1, 7 for item 2,
55 for item 1, 9 for item 3; the lookup for item 1 yields (55, 50), and after
just the first two records it yields (50, none). -/
theorem record_latest_and_previous_witness :
    latest_and_previous
        (applyRecords [(3, 9)]
          (record_price 1 55 (applyRecords [(2, 7)] (record_price 1 50 ({} : Db))))) 1
      = (some 55, some 50) ∧
    latest_and_previous (applyRecords [(2, 7)] (record_price 1 50 ({} : Db))) 1
      = (some 50, none) :=
  ⟨(record_latest_and_previous ({} : Db) 1 50 55 [(2, 7)] [(3, 9)]
      (by decide) (by decide) (by decide)).1,
   (record_latest_and_previous ({} : Db) 1 50 55 [(2, 7)] [(3, 9)]
      (by decide) (by decide) (by decide)).2 rfl⟩

/-! ### Snapshot aggregator: get_summary_stats (database.py) -/

/-- Python x if x else 0 on an optional number: None and 0 give 0. -/
def orZero (o : Option ℚ) : ℚ :=
  match o with
  | none => 0
  | some v => if v = 0 then 0 else v

/-- Python truthiness of an optional float: None and 0.0 are falsy. -/
def pyTruthyQ (o : Option ℚ) : Bool :=
  match o with
  | none => false
  | some v => decide (v ≠ 0)

/-- The latest price of an item: the price at MAX(timestamp). -/
def latestPriceOf (db : Db) (i : Nat) : Option ℚ :=
  (latestObs (itemPrices db i)).map fun o => o.price

/-- SELECT SUM(i.quantity * p.price) joining each item with its latest price;
items without observations drop out of the join, and SUM of no rows is NULL. -/
def total_value_raw (db : Db) : Option ℚ :=
  let vs := db.items.filterMap fun it =>
    (latestPriceOf db it.id).map fun p => (it.quantity : ℚ) * p
  if vs.isEmpty then none else some vs.sum

/-- SELECT SUM(quantity * cost_basis) over items WHERE cost_basis IS NOT NULL. -/
def total_cost_raw (db : Db) : Option ℚ :=
  let cs := db.items.filterMap fun it =>
    it.cost_basis.map fun c => (it.quantity : ℚ) * c
  if cs.isEmpty then none else some cs.sum

/-- The price of an item at MAX(timestamp) among observations with timestamp
strictly below the cutoff (the cutoff models datetime now minus 1 day). -/
def oldLatestPriceOf (db : Db) (cutoff : Nat) (i : Nat) : Option ℚ :=
  (latestObs ((itemPrices db i).filter fun o => decide (o.timestamp < cutoff))).map
    fun o => o.price

/-- SELECT SUM(i.quantity * p.price) joining each item with its latest
observation older than the cutoff; items without one drop out of the join. -/
def prev_value_raw (db : Db) (cutoff : Nat) : Option ℚ :=
  let vs := db.items.filterMap fun it =>
    (oldLatestPriceOf db cutoff it.id).map fun p => (it.quantity : ℚ) * p
  if vs.isEmpty then none else some vs.sum

/-- The dictionary returned by get_summary_stats.  The count aggregates over an
empty table are NULL in SQL, hence the Options. -/
structure SummaryStats where
  item_count : Nat
  total_quantity : Option Int
  sealed_count : Option Nat
  card_count : Option Nat
  total_value : ℚ
  total_cost : ℚ
  prev_value : ℚ
  daily_change : ℚ
  daily_change_pct : ℚ
  total_profit : Option ℚ
  deriving DecidableEq

/-- get_summary_stats (database.py).  The raw SQL sums pass through Python
truthiness: a NULL or 0 total_value/total_cost becomes 0, a NULL or 0
prev_value falls back to total_value, daily_change_pct guards prev_value = 0,
and total_profit is None unless total_cost is truthy. -/
def get_summary_stats (db : Db) (cutoff : Nat) : SummaryStats :=
  let total_value := orZero (total_value_raw db)
  let total_cost := orZero (total_cost_raw db)
  let prev_value :=
    match prev_value_raw db cutoff with
    | none => total_value
    | some v => if v = 0 then total_value else v
  { item_count := db.items.length
    total_quantity :=
      if db.items.isEmpty then none else some (db.items.map Item.quantity).sum
    sealed_count :=
      if db.items.isEmpty then none else some (db.items.filter fun it => it.is_sealed).length
    card_count :=
      if db.items.isEmpty then none else some (db.items.filter fun it => !it.is_sealed).length
    total_value := total_value
    total_cost := total_cost
    prev_value := prev_value
    daily_change := total_value - prev_value
    daily_change_pct :=
      if prev_value = 0 then 0 else (total_value - prev_value) / prev_value * 100
    total_profit := if total_cost = 0 then none else some (total_value - total_cost) }

/-! ### Per-item enrichment of analyze_portfolio (web.py) -/

/-- One element of the get_all_items result: an item row joined with its
current (max-timestamp) and previous (max-timestamp strictly before current)
prices. -/
structure RowItem where
  id : Nat
  name : String
  set_name : Option String := none
  quantity : Int := 1
  cost_basis : Option ℚ := none
  is_sealed : Bool := false
  current_price : Option ℚ := none
  previous_price : Option ℚ := none
  deriving DecidableEq

/-- A row after the per-item loop of analyze_portfolio added the derived
fields. -/
structure EnrichedItem where
  id : Nat
  name : String
  set_name : Option String
  quantity : Int
  cost_basis : Option ℚ
  is_sealed : Bool
  current_price : Option ℚ
  previous_price : Option ℚ
  total_value : ℚ
  change : ℚ
  change_pct : ℚ
  total_cost : ℚ
  pnl : Option ℚ
  pnl_pct : Option ℚ
  deriving DecidableEq

/-- The per-item step of analyze_portfolio: total_value from (current_price or
0); change and change_pct only when previous_price and current_price are both
truthy, else 0; pnl and pnl_pct only when cost_basis is truthy and positive
and current_price is truthy, else None. -/
def enrichItem (i : RowItem) : EnrichedItem :=
  let total_value := orZero i.current_price * (i.quantity : ℚ)
  let cc :=
    match i.previous_price, i.current_price with
    | some pp, some cp =>
        if pp ≠ 0 ∧ cp ≠ 0 then (cp - pp, (cp - pp) / pp * 100) else ((0 : ℚ), (0 : ℚ))
    | _, _ => ((0 : ℚ), (0 : ℚ))
  let total_cost := orZero i.cost_basis * (i.quantity : ℚ)
  let pp :=
    match i.cost_basis, i.current_price with
    | some cb, some cp =>
        if cb ≠ 0 ∧ 0 < cb ∧ cp ≠ 0 then
          (some (total_value - total_cost), some ((cp - cb) / cb * 100))
        else ((none : Option ℚ), (none : Option ℚ))
    | _, _ => ((none : Option ℚ), (none : Option ℚ))
  { id := i.id
    name := i.name
    set_name := i.set_name
    quantity := i.quantity
    cost_basis := i.cost_basis
    is_sealed := i.is_sealed
    current_price := i.current_price
    previous_price := i.previous_price
    total_value := total_value
    change := cc.1
    change_pct := cc.2
    total_cost := total_cost
    pnl := pp.1
    pnl_pct := pp.2 }

/-- C2: when the cost-basis sum is NULL or 0, get_summary_stats reports
total_profit as None, never 0; and the analytics engine reports pnl and
pnl_pct as None, never 0, for every item whose cost_basis is absent or not
positive or whose current price is absent. -/
theorem absent_cost_gives_absent_profit :
    (∀ (db : Db) (cutoff : Nat),
      total_cost_raw db = none ∨ total_cost_raw db = some 0 →
      (get_summary_stats db cutoff).total_profit = none) ∧
    (∀ i : RowItem,
      (i.cost_basis = none ∨ (∃ c, i.cost_basis = some c ∧ ¬ 0 < c) ∨
        i.current_price = none) →
      (enrichItem i).pnl = none ∧ (enrichItem i).pnl_pct = none) := by
  constructor
  · intro db cutoff h
    have hz : orZero (total_cost_raw db) = 0 := by
      rcases h with h | h <;> (rw [h]; simp [orZero])
    simp [get_summary_stats, hz]
  · intro i h
    rcases hcb : i.cost_basis with _ | cb
    · simp [enrichItem, hcb]
    · rcases hcp : i.current_price with _ | cp
      · simp [enrichItem, hcb, hcp]
      · have hnc : ¬ 0 < cb := by
          rcases h with h | ⟨c, hc, hnc⟩ | h
          · rw [hcb] at h
            exact absurd h (by simp)
          · rw [hcb] at hc
            cases Option.some.inj hc
            exact hnc
          · rw [hcp] at h
            exact absurd h (by simp)
        have hcond : ¬ (cb ≠ 0 ∧ 0 < cb ∧ cp ≠ 0) := by
          intro hc
          exact hnc hc.2.1
        simp [enrichItem, hcb, hcp, hcond]

/-- Witness for C2: the empty database has total_profit None, and an item
with a current price but no cost basis has pnl and pnl_pct None. -/
theorem absent_cost_gives_absent_profit_witness :
    (get_summary_stats ({} : Db) 24).total_profit = none ∧
    (enrichItem { id := 1, name := "Pikachu", current_price := some 10 }).pnl = none ∧
    (enrichItem { id := 1, name := "Pikachu", current_price := some 10 }).pnl_pct = none :=
  ⟨absent_cost_gives_absent_profit.1 ({} : Db) 24 (Or.inl rfl),
   (absent_cost_gives_absent_profit.2
      { id := 1, name := "Pikachu", current_price := some 10 } (Or.inl rfl)).1,
   (absent_cost_gives_absent_profit.2
      { id := 1, name := "Pikachu", current_price := some 10 } (Or.inl rfl)).2⟩

/-- Two successive filters collapse to one filter testing both predicates. -/
theorem filter_comm_and {α : Type} (p q : α → Bool) (l : List α) :
    l.filter (fun a => p a && q a) = (l.filter p).filter q := by
  induction l with
  | nil => rfl
  | cons x t ih =>
      cases hp : p x with
      | true =>
          cases hq : q x with
          | true =>
              rw [List.filter_cons_of_pos (by simp [hp, hq]), List.filter_cons_of_pos hp,
                List.filter_cons_of_pos hq, ih]
          | false =>
              rw [List.filter_cons_of_neg (by simp [hp, hq]), List.filter_cons_of_pos hp,
                List.filter_cons_of_neg (by simp [hq]), ih]
      | false =>
          rw [List.filter_cons_of_neg (by simp [hp]), List.filter_cons_of_neg (by simp [hp]), ih]

/-- Splitting a conjunction filter over the prices table into the two
successive filters used by the embedding. -/
theorem filter_and_split (l : List PriceObs) (i : Nat) (c : Nat) :
    l.filter (fun o => decide (o.item_id = i ∧ o.timestamp < c))
      = (l.filter fun o => decide (o.item_id = i)).filter
          (fun o => decide (o.timestamp < c)) := by
  rw [← filter_comm_and (fun o : PriceObs => decide (o.item_id = i))
    (fun o => decide (o.timestamp < c)) l]
  apply List.filter_congr
  intro o ho
  simp

/-- The spec-side reading of the prev_value sum: per item, the latest
observation whose timestamp lies more than 24 hours in the past (below the
cutoff), items without such an observation excluded; NULL when no item
contributes. -/
def prevValueSpecSum (db : Db) (cutoff : Nat) : Option ℚ :=
  let contributions := db.items.filterMap fun it =>
    (latestObs (db.prices.filter fun o =>
        decide (o.item_id = it.id ∧ o.timestamp < cutoff))).map
      fun o => (it.quantity : ℚ) * o.price
  if contributions.isEmpty then none else some contributions.sum

/-- C3: prev_value sums quantity times price over each item's latest
observation older than the cutoff; when that sum is NULL or 0 it falls back
to total_value, making daily_change 0; daily_change_pct is 0 whenever
prev_value is 0 (no division is attempted); and a truthy raw sum is used
as is. -/
theorem prev_value_fallback (db : Db) (cutoff : Nat) :
    prev_value_raw db cutoff = prevValueSpecSum db cutoff ∧
    ((prev_value_raw db cutoff = none ∨ prev_value_raw db cutoff = some 0) →
      (get_summary_stats db cutoff).prev_value = (get_summary_stats db cutoff).total_value ∧
      (get_summary_stats db cutoff).daily_change = 0) ∧
    ((get_summary_stats db cutoff).prev_value = 0 →
      (get_summary_stats db cutoff).daily_change_pct = 0) ∧
    (∀ v : ℚ, prev_value_raw db cutoff = some v → v ≠ 0 →
      (get_summary_stats db cutoff).prev_value = v) := by
  refine ⟨?_, ?_, ?_, ?_⟩
  · have hfun : (fun it : Item =>
        Option.map (fun p => (it.quantity : ℚ) * p) (oldLatestPriceOf db cutoff it.id))
        = fun it : Item =>
        (latestObs (db.prices.filter fun o =>
            decide (o.item_id = it.id ∧ o.timestamp < cutoff))).map
          fun o => (it.quantity : ℚ) * o.price := by
      funext it
      rw [oldLatestPriceOf, itemPrices, ← filter_and_split, Option.map_map]
      rfl
    simp only [prev_value_raw, prevValueSpecSum]
    rw [hfun]
  · intro h
    have hm : (match prev_value_raw db cutoff with
        | none => orZero (total_value_raw db)
        | some v => if v = 0 then orZero (total_value_raw db) else v)
        = orZero (total_value_raw db) := by
      rcases h with h | h
      · rw [h]
      · rw [h]
        simp
    constructor
    · simp only [get_summary_stats]
      rw [hm]
    · simp only [get_summary_stats]
      rw [hm, sub_self]
  · intro h
    simp only [get_summary_stats] at h ⊢
    rw [if_pos h]
  · intro v hv hnz
    simp only [get_summary_stats]
    rw [hv]
    show (if v = 0 then orZero (total_value_raw db) else v) = v
    rw [if_neg hnz]

/-- The one-item, one-observation database used in the C3 witness. -/
def sampleDbC3 : Db :=
  { items := [{ id := 1, name := "Pikachu" }], prices := [⟨1, 10, 0⟩], clock := 1 }

/-- Witness for C3: with cutoff 0 no observation is old enough, so the
fallback applies (daily change 0); the empty database has prev_value 0 and
daily_change_pct 0; with cutoff 5 the observation is old enough and its raw
sum 10 is used as is. -/
theorem prev_value_fallback_witness :
    ((get_summary_stats sampleDbC3 0).prev_value
      = (get_summary_stats sampleDbC3 0).total_value ∧
     (get_summary_stats sampleDbC3 0).daily_change = 0) ∧
    (get_summary_stats ({} : Db) 24).daily_change_pct = 0 ∧
    (get_summary_stats sampleDbC3 5).prev_value = 10 :=
  ⟨(prev_value_fallback sampleDbC3 0).2.1 (Or.inl (by decide)),
   (prev_value_fallback ({} : Db) 24).2.2.1 (by decide),
   (prev_value_fallback sampleDbC3 5).2.2.2 10
     (by norm_num [prev_value_raw, oldLatestPriceOf, itemPrices, latestObs, sampleDbC3,
       List.filter_cons, List.filterMap_cons])
     (by norm_num)⟩

/-! ### Concentration (analyze_portfolio, web.py) -/

/-- The sort key of sorted(items, key=total_value, reverse=True): descending
by per-item total value. -/
def byValueDesc (a b : EnrichedItem) : Prop :=
  b.total_value ≤ a.total_value

instance decByValueDesc : DecidableRel byValueDesc :=
  fun a b => inferInstanceAs (Decidable (b.total_value ≤ a.total_value))

instance totalByValueDesc : IsTotal EnrichedItem byValueDesc :=
  ⟨fun a b => le_total b.total_value a.total_value⟩

instance transByValueDesc : IsTrans EnrichedItem byValueDesc :=
  ⟨fun _ _ _ hab hbc => le_trans hbc hab⟩

instance decDescRat : DecidableRel (fun a b : ℚ => b ≤ a) :=
  fun a b => inferInstanceAs (Decidable (b ≤ a))

instance totalDescRat : IsTotal ℚ (fun a b => b ≤ a) :=
  ⟨fun a b => le_total b a⟩

instance transDescRat : IsTrans ℚ (fun a b => b ≤ a) :=
  ⟨fun _ _ _ hab hbc => le_trans hbc hab⟩

instance antisymmDescRat : IsAntisymm ℚ (fun a b => b ≤ a) :=
  ⟨fun _ _ h1 h2 => le_antisymm h2 h1⟩

/-- top_5_value of analyze_portfolio: sort all items descending by total_value
(Python's stable sort modelled by insertion sort) and sum the first five. -/
def top_5_value (items : List EnrichedItem) : ℚ :=
  (((List.insertionSort byValueDesc items).take 5).map EnrichedItem.total_value).sum

/-- top_5_pct of analyze_portfolio: top_5_value / total_value * 100 when
total_value is truthy, else 0. -/
def top_5_pct (items : List EnrichedItem) (total_value : ℚ) : ℚ :=
  if total_value = 0 then 0 else top_5_value items / total_value * 100

/-- The sum of the five largest elements of a list of rationals: the spec-side
reading of the concentration numerator, computed over the full list. -/
def fiveLargestSum (vs : List ℚ) : ℚ :=
  ((List.insertionSort (fun a b : ℚ => b ≤ a) vs).take 5).sum

/-- Mapping total_value over the value-sorted items gives the sorted value
list. -/
theorem sorted_map_value (items : List EnrichedItem) :
    (List.insertionSort byValueDesc items).map EnrichedItem.total_value
      = List.insertionSort (fun a b : ℚ => b ≤ a)
          (items.map EnrichedItem.total_value) := by
  apply List.eq_of_perm_of_sorted (r := fun a b : ℚ => b ≤ a)
  · exact ((List.perm_insertionSort _ _).map _).trans
      (List.perm_insertionSort _ _).symm
  · exact List.Pairwise.map _ (fun _ _ h => h)
      (List.sorted_insertionSort byValueDesc items)
  · exact List.sorted_insertionSort _ _

/-- C7: the top-5 concentration is invariant under permutation of the item
list, and top_5_value equals the sum of the five largest per-item total
values of the full list (with pct 0 when total_value is 0). -/
theorem concentration_perm_invariant (l1 l2 : List EnrichedItem) (tv : ℚ)
    (hperm : List.Perm l1 l2) :
    top_5_pct l1 tv = top_5_pct l2 tv ∧
    top_5_value l1 = fiveLargestSum (l1.map EnrichedItem.total_value) := by
  have hval : ∀ l : List EnrichedItem,
      top_5_value l = fiveLargestSum (l.map EnrichedItem.total_value) := by
    intro l
    rw [top_5_value, fiveLargestSum, ← sorted_map_value, List.map_take]
  have hsorteq : List.insertionSort (fun a b : ℚ => b ≤ a)
        (l1.map EnrichedItem.total_value)
      = List.insertionSort (fun a b : ℚ => b ≤ a)
        (l2.map EnrichedItem.total_value) := by
    apply List.eq_of_perm_of_sorted (r := fun a b : ℚ => b ≤ a)
    · exact ((List.perm_insertionSort _ _).trans (hperm.map _)).trans
        (List.perm_insertionSort _ _).symm
    · exact List.sorted_insertionSort _ _
    · exact List.sorted_insertionSort _ _
  have hv12 : top_5_value l1 = top_5_value l2 := by
    rw [hval l1, hval l2, fiveLargestSum, fiveLargestSum, hsorteq]
  exact ⟨by rw [top_5_pct, top_5_pct, hv12], hval l1⟩

/-- Sample enriched rows for the C7 witness. -/
def sampleEnrichedA : EnrichedItem :=
  { id := 1, name := "A", set_name := none, quantity := 1, cost_basis := none,
    is_sealed := false, current_price := some 4, previous_price := none,
    total_value := 4, change := 0, change_pct := 0, total_cost := 0,
    pnl := none, pnl_pct := none }

def sampleEnrichedB : EnrichedItem :=
  { id := 2, name := "B", set_name := none, quantity := 1, cost_basis := none,
    is_sealed := false, current_price := some 9, previous_price := none,
    total_value := 9, change := 0, change_pct := 0, total_cost := 0,
    pnl := none, pnl_pct := none }

/-- Witness for C7: swapping a two-element item list leaves the top-5
percentage unchanged, and top_5_value is the five-largest sum. -/
theorem concentration_perm_invariant_witness :
    top_5_pct [sampleEnrichedA, sampleEnrichedB] 20
      = top_5_pct [sampleEnrichedB, sampleEnrichedA] 20 ∧
    top_5_value [sampleEnrichedA, sampleEnrichedB]
      = fiveLargestSum ([sampleEnrichedA, sampleEnrichedB].map EnrichedItem.total_value) :=
  concentration_perm_invariant [sampleEnrichedA, sampleEnrichedB]
    [sampleEnrichedB, sampleEnrichedA] 20
    (List.Perm.swap sampleEnrichedB sampleEnrichedA [])

/-! ### Sealed-product classification (importer.py) -/

/-- Substring containment on character lists, modelling Python's in operator. -/
def containsSub : List Char → List Char → Bool
  | [], needle => needle.isEmpty
  | c :: rest, needle => needle.isPrefixOf (c :: rest) || containsSub rest needle

/-- Python str.lower(), which lowercases the basic latin letters occurring in
the CSV data. -/
def lowerStr (s : String) : String :=
  String.mk (s.data.map Char.toLower)

/-- Python needle in hay on strings. -/
def strContains (hay needle : String) : Bool :=
  containsSub hay.data needle.data

/-- The fixed keyword list of is_sealed_product. -/
def sealed_keywords : List String :=
  ["sealed", "booster", "box", "pack", "etb", "elite trainer",
   "collection", "tin", "bundle", "case", "display"]

/-- is_sealed_product (importer.py): sealed when the lowercased category
contains "sealed", or the lowercased product name contains a keyword. -/
def is_sealed_product (category product_name : String) : Bool :=
  let category_lower := lowerStr category
  let name_lower := lowerStr product_name
  if strContains category_lower "sealed" then true
  else sealed_keywords.any fun k => strContains name_lower k

/-- C6: the classifier returns sealed exactly when the lowercased category
contains "sealed" or the lowercased name contains one of the fixed keywords;
in particular the Sealed Booster Box scenario classifies as sealed, and it
does so via both the category rule and the name-keyword rule. -/
theorem is_sealed_product_iff :
    (∀ category product_name : String,
      is_sealed_product category product_name = true ↔
        (strContains (lowerStr category) "sealed" = true ∨
         ∃ k ∈ sealed_keywords, strContains (lowerStr product_name) k = true)) ∧
    is_sealed_product "Sealed Booster Box" "Scarlet & Violet Booster Box" = true ∧
    strContains (lowerStr "Sealed Booster Box") "sealed" = true ∧
    sealed_keywords.any
      (fun k => strContains (lowerStr "Scarlet & Violet Booster Box") k) = true := by
  refine ⟨?_, by decide, by decide, by decide⟩
  intro c n
  rw [is_sealed_product]
  by_cases h : strContains (lowerStr c) "sealed" = true
  · simp [h]
  · simp only [Bool.not_eq_true] at h
    simp [h, List.any_eq_true]

/-! ### CSV import (importer.py) -/

/-- Python value or None on a stripped string field: the empty string becomes
None before upsert. -/
def strOrNone (s : String) : Option String :=
  if s = "" then none else some s

/-- Python a or b on optional floats: a wins unless it is falsy (None or 0). -/
def pyOrOpt (a b : Option ℚ) : Option ℚ :=
  match a with
  | some v => if v = 0 then b else some v
  | none => b

/-- A normalized row yielded by read_csv: strings already stripped, currency
and quantity fields already parsed. -/
structure CsvRow where
  portfolio_name : String := ""
  category : String := ""
  set_name : String := ""
  name : String := ""
  card_number : String := ""
  rarity : String := ""
  variance : String := ""
  grade : String := ""
  condition : String := ""
  cost_basis : Option ℚ := none
  quantity : Int := 1
  market_price : Option ℚ := none
  price_override : Option ℚ := none
  date_added : String := ""
  notes : String := ""
  deriving DecidableEq

/-- The argument record import_csv passes to upsert_item: blank optional
fields become None, sealed is classified from category and name, and no
api_id is ever supplied. -/
def upsertArgsOfRow (r : CsvRow) : UpsertArgs :=
  { name := r.name
    set_name := strOrNone r.set_name
    card_number := strOrNone r.card_number
    rarity := strOrNone r.rarity
    variance := strOrNone r.variance
    quantity := r.quantity
    cost_basis := r.cost_basis
    is_sealed := is_sealed_product r.category r.name
    api_id := none
    portfolio_name := strOrNone r.portfolio_name
    grade := strOrNone r.grade
    condition := strOrNone r.condition
    notes := strOrNone r.notes
    date_added := strOrNone r.date_added }

/-- The price import_csv records for a row, if any: price = price_override or
market_price, recorded only if price and price > 0. -/
def importRowRecordedPrice (r : CsvRow) : Option ℚ :=
  let price := pyOrOpt r.price_override r.market_price
  match price with
  | some p => if p ≠ 0 ∧ 0 < p then some p else none
  | none => none

/-- One loop iteration of import_csv: skip rows without a name, upsert the
row, and record the selected price when it is truthy and positive. -/
def import_row (r : CsvRow) (db : Db) : Db :=
  if r.name = "" then db
  else
    let res := upsert_item (upsertArgsOfRow r) db
    match importRowRecordedPrice r with
    | some p => record_price res.1 p res.2
    | none => res.2

/-- upsert_item never touches the prices table. -/
theorem upsert_prices_unchanged (a : UpsertArgs) (db : Db) :
    (upsert_item a db).2.prices = db.prices := by
  cases h : db.items.find? (keyMatches a) <;> simp [upsert_item, h]

/-- C9: the import price selection prefers price_override whenever it is
present and nonzero; market_price is used only when the override is absent or
zero; a positive override is what gets recorded; any recorded price is
strictly positive; and every observation present after an import step was
either already stored or has a strictly positive price. -/
theorem import_price_selection (r : CsvRow) (db : Db) :
    (∀ po pm : ℚ, r.price_override = some po → po ≠ 0 → r.market_price = some pm →
      pyOrOpt r.price_override r.market_price = some po) ∧
    ((r.price_override = none ∨ r.price_override = some 0) →
      pyOrOpt r.price_override r.market_price = r.market_price) ∧
    (∀ po : ℚ, r.price_override = some po → 0 < po →
      importRowRecordedPrice r = some po) ∧
    (∀ p : ℚ, importRowRecordedPrice r = some p → 0 < p) ∧
    (∀ o ∈ (import_row r db).prices, o ∈ db.prices ∨ 0 < o.price) := by
  have hpos4 : ∀ p : ℚ, importRowRecordedPrice r = some p → 0 < p := by
    intro p hp
    rw [importRowRecordedPrice] at hp
    rcases hh : pyOrOpt r.price_override r.market_price with _ | q
    · rw [hh] at hp
      exact absurd hp (by simp)
    · rw [hh] at hp
      have hp2 : (if q ≠ 0 ∧ 0 < q then some q else (none : Option ℚ)) = some p := hp
      by_cases hcond : q ≠ 0 ∧ 0 < q
      · rw [if_pos hcond] at hp2
        cases Option.some.inj hp2
        exact hcond.2
      · rw [if_neg hcond] at hp2
        exact absurd hp2 (by simp)
  refine ⟨?_, ?_, ?_, hpos4, ?_⟩
  · intro po pm hpo hne _
    rw [hpo]
    simp [pyOrOpt, hne]
  · intro h
    rcases h with h | h <;> (rw [h]; simp [pyOrOpt])
  · intro po hpo hpos
    rw [importRowRecordedPrice, hpo]
    have hne : po ≠ 0 := ne_of_gt hpos
    simp [pyOrOpt, hne, hpos]
  · intro o ho
    rw [import_row] at ho
    by_cases hn : r.name = ""
    · rw [if_pos hn] at ho
      exact Or.inl ho
    · rw [if_neg hn] at ho
      rcases hrec : importRowRecordedPrice r with _ | p
      · rw [hrec] at ho
        rw [upsert_prices_unchanged] at ho
        exact Or.inl ho
      · rw [hrec] at ho
        have hmem : o ∈ (upsert_item (upsertArgsOfRow r) db).2.prices ++
            [{ item_id := (upsert_item (upsertArgsOfRow r) db).1, price := p,
               timestamp := (upsert_item (upsertArgsOfRow r) db).2.clock }] := ho
        rcases List.mem_append.mp hmem with h | h
        · rw [upsert_prices_unchanged] at h
          exact Or.inl h
        · rcases List.mem_singleton.mp h with rfl
          exact Or.inr (hpos4 p hrec)

/-- Witness for C9: a row with override 5 and market price 3 selects and
records 5, and the recorded price is positive. -/
theorem import_price_selection_witness :
    pyOrOpt (some 5) (some 3) = some 5 ∧
    importRowRecordedPrice
      { name := "Pikachu", price_override := some 5, market_price := some 3 } = some 5 ∧
    (0 : ℚ) < 5 :=
  ⟨(import_price_selection
      { name := "Pikachu", price_override := some 5, market_price := some 3 } ({} : Db)).1
      5 3 rfl (by norm_num) rfl,
   (import_price_selection
      { name := "Pikachu", price_override := some 5, market_price := some 3 } ({} : Db)).2.2.1
      5 rfl (by norm_num),
   (import_price_selection
      { name := "Pikachu", price_override := some 5, market_price := some 3 } ({} : Db)).2.2.2.1
      5 ((import_price_selection
        { name := "Pikachu", price_override := some 5, market_price := some 3 } ({} : Db)).2.2.1
        5 rfl (by norm_num))⟩

/-- C10: blank optional key fields of a CSV row are turned into None before
upsert, so a row with blank set_name, card_number, variance, grade and
condition has the same natural-key identity as a stored item whose
corresponding columns are NULL: importing it updates that item in place
(same id, no new row). -/
theorem import_blank_key_matches (db : Db) (r : CsvRow) (it : Item)
    (hs : r.set_name = "") (hc : r.card_number = "") (hv : r.variance = "")
    (hg : r.grade = "") (hco : r.condition = "")
    (hmem : it ∈ db.items) (hname : it.name = r.name)
    (hs2 : it.set_name = none) (hc2 : it.card_number = none)
    (hv2 : it.variance = none) (hg2 : it.grade = none) (hco2 : it.condition = none)
    (hdup : (db.items.filter (keyMatches (upsertArgsOfRow r))).length ≤ 1) :
    ((upsertArgsOfRow r).set_name = none ∧ (upsertArgsOfRow r).card_number = none ∧
     (upsertArgsOfRow r).variance = none ∧ (upsertArgsOfRow r).grade = none ∧
     (upsertArgsOfRow r).condition = none) ∧
    (upsert_item (upsertArgsOfRow r) db).1 = it.id ∧
    (upsert_item (upsertArgsOfRow r) db).2.items.length = db.items.length := by
  have hargs : (upsertArgsOfRow r).set_name = none ∧ (upsertArgsOfRow r).card_number = none ∧
      (upsertArgsOfRow r).variance = none ∧ (upsertArgsOfRow r).grade = none ∧
      (upsertArgsOfRow r).condition = none := by
    simp [upsertArgsOfRow, strOrNone, hs, hc, hv, hg, hco]
  have hkey : keyMatches (upsertArgsOfRow r) it = true := by
    simp [keyMatches, upsertArgsOfRow, strOrNone, hs, hc, hv, hg, hco,
      hname, hs2, hc2, hv2, hg2, hco2]
  have hfilt : db.items.filter (keyMatches (upsertArgsOfRow r)) = [it] :=
    eq_singleton_of_length_le_one hdup (List.mem_filter.mpr ⟨hmem, hkey⟩)
  have hfind : db.items.find? (keyMatches (upsertArgsOfRow r)) = some it := by
    rw [find?_eq_head?_filter, hfilt]
    rfl
  refine ⟨hargs, ?_, ?_⟩
  · simp [upsert_item, hfind]
  · simp [upsert_item, hfind]

/-- Witness for C10: importing a row with blank key fields against a database
holding one item with NULL key fields updates that item. -/
theorem import_blank_key_matches_witness :
    ((upsertArgsOfRow { name := "Pikachu" }).set_name = none ∧
     (upsertArgsOfRow { name := "Pikachu" }).card_number = none ∧
     (upsertArgsOfRow { name := "Pikachu" }).variance = none ∧
     (upsertArgsOfRow { name := "Pikachu" }).grade = none ∧
     (upsertArgsOfRow { name := "Pikachu" }).condition = none) ∧
    (upsert_item (upsertArgsOfRow { name := "Pikachu" })
       { items := [{ id := 1, name := "Pikachu" }] }).1 = 1 ∧
    (upsert_item (upsertArgsOfRow { name := "Pikachu" })
       { items := [{ id := 1, name := "Pikachu" }] }).2.items.length
      = ({ items := [{ id := 1, name := "Pikachu" }] } : Db).items.length :=
  import_blank_key_matches { items := [{ id := 1, name := "Pikachu" }] }
    { name := "Pikachu" } { id := 1, name := "Pikachu" }
    rfl rfl rfl rfl rfl (by decide) rfl rfl rfl rfl rfl rfl (by decide)

/-! ### Recommendation heuristics (generate_recommendations, web.py) -/

/-- The slice of the analyze_portfolio result read by
generate_recommendations. -/
structure Analysis where
  total_value : ℚ
  total_cost : ℚ
  top_5_pct : ℚ
  sealed_pct : ℚ
  items : List EnrichedItem
  gainers : List EnrichedItem
  losers : List EnrichedItem
  best : List EnrichedItem
  worst : List EnrichedItem
  deriving DecidableEq

/-- The advisory entries, keeping the data that drives the control flow. -/
inductive Recommendation where
  | getStarted : Recommendation
  | health (score : Int) : Recommendation
  | momentumPos (gainers losers : Nat) : Recommendation
  | momentumNeg (losers : Nat) : Recommendation
  | takeProfit (name : String) : Recommendation
  | lossReview (name : String) : Recommendation
  | concentrationRisk : Recommendation
  | costTracking : Recommendation
  deriving DecidableEq

/-- cost_coverage: the share of items whose cost_basis is truthy, 0 for an
empty item list. -/
def costCoverage (a : Analysis) : ℚ :=
  if a.items.isEmpty then 0
  else ((a.items.filter fun i => pyTruthyQ i.cost_basis).length : ℚ) / (a.items.length : ℚ)

/-- The sequential health computation of generate_recommendations: start at
100, subtract 20 for concentration above 60, 15 for cost coverage below 0.5,
10 for sealed share above 80; when total_cost is truthy and positive, add 10
capped at 100 for ROI above 20, or subtract 10 for ROI below -10. -/
def healthScore (a : Analysis) : Int :=
  let health0 : Int := 100
  let health1 := if a.top_5_pct > 60 then health0 - 20 else health0
  let health2 := if costCoverage a < 1/2 then health1 - 15 else health1
  let health3 := if a.sealed_pct > 80 then health2 - 10 else health2
  if a.total_cost ≠ 0 ∧ 0 < a.total_cost then
    let roi := (a.total_value - a.total_cost) / a.total_cost * 100
    if roi > 20 then min 100 (health3 + 10)
    else if roi < -10 then health3 - 10
    else health3
  else health3

/-- generate_recommendations (web.py): the Get Started entry on an empty
portfolio; otherwise the health entry first, then the conditional momentum,
profit-taking (top 2 best performers), loss-review (worst performer),
concentration and cost-tracking entries, truncated to 6. -/
def generate_recommendations (a : Analysis) : List Recommendation :=
  if a.total_value = 0 then [Recommendation.getStarted]
  else
    let recs1 := [Recommendation.health (healthScore a)]
    let g := a.gainers.length
    let lo := a.losers.length
    let recs2 := recs1 ++
      (if g > lo then [Recommendation.momentumPos g lo]
       else if lo > g ∧ lo > 3 then [Recommendation.momentumNeg lo]
       else [])
    let recs3 := recs2 ++ ((a.best.take 2).filterMap fun i =>
      match i.pnl_pct with
      | some v => if v ≠ 0 ∧ v > 50 then some (Recommendation.takeProfit i.name) else none
      | none => none)
    let recs4 := recs3 ++ ((a.worst.take 1).filterMap fun i =>
      match i.pnl_pct with
      | some v => if v ≠ 0 ∧ v < -25 then some (Recommendation.lossReview i.name) else none
      | none => none)
    let recs5 := recs4 ++
      (if a.top_5_pct > 50 then [Recommendation.concentrationRisk] else [])
    let recs6 := recs5 ++
      (if costCoverage a < 7/10 then [Recommendation.costTracking] else [])
    recs6.take 6

/-- The claim-side health score: 100 minus the three penalties, with the ROI
adjustment applied exactly when total_cost is positive. -/
def healthScoreSpec (a : Analysis) : Int :=
  let base : Int := 100
    - (if a.top_5_pct > 60 then 20 else 0)
    - (if costCoverage a < 1/2 then 15 else 0)
    - (if a.sealed_pct > 80 then 10 else 0)
  if 0 < a.total_cost then
    let roi := (a.total_value - a.total_cost) / a.total_cost * 100
    if roi > 20 then min 100 (base + 10)
    else if roi < -10 then base - 10
    else base
  else base

/-- The chained health computation equals the claim-side formula. -/
theorem healthScore_eq_spec (a : Analysis) : healthScore a = healthScoreSpec a := by
  have hguard : (a.total_cost ≠ 0 ∧ 0 < a.total_cost) ↔ (0 < a.total_cost) :=
    ⟨fun h => h.2, fun h => ⟨ne_of_gt h, h⟩⟩
  simp only [healthScore, healthScoreSpec, hguard]
  split_ifs <;> omega

/-- C8: for every analysis input with positive total_value, the
recommendation list has at most 6 entries, and its first entry is the
portfolio-health entry carrying the score of the claim's formula. -/
theorem recommendations_capped_health_first (a : Analysis) (h : 0 < a.total_value) :
    (generate_recommendations a).length ≤ 6 ∧
    (generate_recommendations a).head? = some (Recommendation.health (healthScoreSpec a)) := by
  have hne : ¬ (a.total_value = 0) := ne_of_gt h
  constructor
  · simp only [generate_recommendations, if_neg hne]
    exact List.length_take_le 6 _
  · simp only [generate_recommendations, if_neg hne, healthScore_eq_spec]
    rfl

/-- Witness for C8 on a small concrete analysis with positive value. -/
theorem recommendations_capped_health_first_witness :
    (generate_recommendations
      { total_value := 100, total_cost := 0, top_5_pct := 10, sealed_pct := 0,
        items := [], gainers := [], losers := [], best := [], worst := [] }).length ≤ 6 ∧
    (generate_recommendations
      { total_value := 100, total_cost := 0, top_5_pct := 10, sealed_pct := 0,
        items := [], gainers := [], losers := [], best := [], worst := [] }).head?
      = some (Recommendation.health (healthScoreSpec
      { total_value := 100, total_cost := 0, top_5_pct := 10, sealed_pct := 0,
        items := [], gainers := [], losers := [], best := [], worst := [] })) :=
  recommendations_capped_health_first
    { total_value := 100, total_cost := 0, top_5_pct := 10, sealed_pct := 0,
      items := [], gainers := [], losers := [], best := [], worst := [] }
    (by norm_num)

end Vault
